import Mathlib

/-!
Verification of the streaming subscription engine of the coincap client
(src/coincap.go, `subscribe` / `SubscribeTrades`).

The reconnect loop in `subscribe` is embedded as a deterministic run over a
finite schedule: for each connection attempt the schedule records whether the
dial and each of the three handler registrations succeed, and which event the
two-way `select` (internal failure channel vs. caller control channel)
observes first once the session is live.  Channels allocated by
`make(chan error, 2)` are modelled by allocation-order identifiers threaded
through the run, and session lifecycle is recorded as an event trace.
-/

/-- Errors as produced by the `pkg/errors` package: `errors.Errorf` builds an
error from a message, `errors.Wrap` wraps a cause with a message, and opaque
errors coming from the transport library are tagged externally. -/
inductive GoErr : Type where
  | errorf (msg : String) : GoErr
  | wrap (msg : String) (cause : GoErr) : GoErr
  | external (tag : Nat) : GoErr
deriving DecidableEq, Repr

/-- The outcome the two-way `select` in `doConnect` observes first once the
session is live: either an error value on the internal failure channel
(`err := <-errCh`), or a receive on the control channel
(`val, ok := <-stopChan`, where `ok = false` means the channel is closed). -/
inductive LiveOutcome : Type where
  | failure (e : GoErr) : LiveOutcome
  | ctrl (val : Bool) (ok : Bool) : LiveOutcome
deriving DecidableEq, Repr

/-- Schedule for one iteration of the reconnect loop: whether
`gosio.Dial` fails, whether each of the three `client.On` registrations
fails, and what the `select` observes first if the session goes live. -/
structure Attempt : Type where
  dial : Option GoErr
  regDisconnect : Option GoErr
  regError : Option GoErr
  regMsg : Option GoErr
  live : LiveOutcome
deriving DecidableEq, Repr

/-- Session lifecycle events recorded by a run: creation of a transport
session by `gosio.Dial`, and its closure by `client.Close()`. -/
inductive Event : Type where
  | created (id : Nat) : Event
  | closed (id : Nat) : Event
deriving DecidableEq, Repr

/-- Which handler a successful `client.On` call registered. -/
inductive HandlerKind : Type where
  | onDisconnection : HandlerKind
  | onError : HandlerKind
  | message : HandlerKind
deriving DecidableEq, Repr

/-- A successfully registered handler and the identifier of the internal
failure channel it posts to (`none` for the message handler, which sends to
the consumer sink instead). -/
structure Registration : Type where
  kind : HandlerKind
  postsTo : Option Nat
deriving DecidableEq, Repr

/-- Embedding of `makeClient` (src/coincap.go lines 261-287): dial, then
register the disconnect, error and message handlers in order; on a dial
error no session exists, on a registration error the deferred
`client.Close()` fires because `err != nil`.  Returns the error result (the
wrapped error, or `none` on success), the lifecycle events of this call, and
the handlers that were successfully registered (each failure-channel handler
posts to the `errCh` passed in). -/
def makeClient (errCh : Nat) (id : Nat) (a : Attempt) :
    Option GoErr × List Event × List Registration :=
  match a.dial with
  | some e => (some (.wrap "coincap: ws dial error" e), [], [])
  | none =>
    match a.regDisconnect with
    | some e => (some (.wrap "failed to setup disconnect handler" e),
                 [.created id, .closed id], [])
    | none =>
      match a.regError with
      | some e => (some (.wrap "failed to setup error handler" e),
                   [.created id, .closed id],
                   [⟨.onDisconnection, some errCh⟩])
      | none =>
        match a.regMsg with
        | some e => (some (.wrap "failed to setup message handler" e),
                     [.created id, .closed id],
                     [⟨.onDisconnection, some errCh⟩, ⟨.onError, some errCh⟩])
        | none => (none, [.created id],
                   [⟨.onDisconnection, some errCh⟩, ⟨.onError, some errCh⟩,
                    ⟨.message, none⟩])

/-- Result of one `doConnect` call: `goon` (whether the loop continues), the
error returned, the lifecycle events, the registered handlers, the failure
channel the `select` waited on (`none` when session establishment failed and
the `select` was never reached), and whether the control channel was
consulted. -/
structure DoOut : Type where
  goon : Bool
  err : Option GoErr
  events : List Event
  regs : List Registration
  waitedOn : Option Nat
  consultedCtrl : Bool
deriving DecidableEq, Repr

/-- Embedding of `doConnect` (src/coincap.go lines 288-301): allocate a fresh
buffered failure channel, build the client; on establishment failure return
the error with `goon = false`.  Otherwise `select` over the failure channel
and the control channel: a failure value yields `(false, err)`, a control
receive `val, ok` yields `(ok && !val, nil)`; the deferred `client.Close()`
closes the session on both paths. -/
def doConnect (errCh : Nat) (id : Nat) (a : Attempt) : DoOut :=
  match makeClient errCh id a with
  | (some e, ev, regs) => ⟨false, some e, ev, regs, none, false⟩
  | (none, ev, regs) =>
    match a.live with
    | .failure e => ⟨false, some e, ev ++ [.closed id], regs, some errCh, true⟩
    | .ctrl val ok =>
        ⟨ok && !val, none, ev ++ [.closed id], regs, some errCh, true⟩

/-- Per-iteration record of a run: the failure-channel identifier this
iteration allocated with `make(chan error, 2)`, and the iteration's outcome. -/
structure AttemptRec : Type where
  chan : Nat
  out : DoOut
deriving DecidableEq, Repr

/-- Embedding of the `for` loop of `subscribe` (src/coincap.go lines
302-307), run against a finite schedule of attempts.  `next` is the next
fresh channel identifier and `id` the next session identifier; both advance
by one each iteration.  The first component is `some err` when the loop
returned (`!goon`), and `none` when the schedule was exhausted with the loop
still running (the loop itself has no exit other than `return err`). -/
def subscribeLoop (next : Nat) (id : Nat) :
    List Attempt → Option (Option GoErr) × List AttemptRec
  | [] => (none, [])
  | a :: rest =>
    let out := doConnect next id a
    if out.goon then
      let r := subscribeLoop (next + 1) (id + 1) rest
      (r.1, ⟨next, out⟩ :: r.2)
    else
      (some out.err, [⟨next, out⟩])

/-- Embedding of `subscribe`: run the reconnect loop from fresh counters. -/
def subscribe (attempts : List Attempt) :
    Option (Option GoErr) × List AttemptRec :=
  subscribeLoop 0 0 attempts

/-- The session lifecycle trace of a run. -/
def runTrace (recs : List AttemptRec) : List Event :=
  recs.flatMap (fun r => r.out.events)

/-- An attempt whose session establishment succeeds and whose `select`
observes the given outcome. -/
def mkLive (l : LiveOutcome) : Attempt := ⟨none, none, none, none, l⟩

/-- A successful attempt on which the caller sends `false` (Reset). -/
def resetAttempt : Attempt := mkLive (.ctrl false true)

/-- A successful attempt on which the caller sends `true` (Stop). -/
def stopAttempt : Attempt := mkLive (.ctrl true true)

/-- Session establishment fails on this attempt: the dial or one of the
three handler registrations returns an error. -/
def estFails (a : Attempt) : Prop :=
  a.dial.isSome ∨ a.regDisconnect.isSome ∨ a.regError.isSome ∨ a.regMsg.isSome

instance (a : Attempt) : Decidable (estFails a) := by
  unfold estFails; infer_instance

/-- The establishment error `makeClient` reports for an attempt (arguments
`errCh`/`id` do not affect it). -/
def estErr (a : Attempt) : Option GoErr := (makeClient 0 0 a).1

/-- Number of `created` events in a trace. -/
def createdCount (tr : List Event) : Nat :=
  tr.countP (fun e => match e with | .created _ => true | .closed _ => false)

/-- Number of `closed` events in a trace. -/
def closedCount (tr : List Event) : Nat :=
  tr.countP (fun e => match e with | .created _ => false | .closed _ => true)

/-- No two sessions are live at once: in every prefix of the trace, at most
one more session has been created than closed. -/
def noTwoLive (tr : List Event) : Prop :=
  ∀ p : List Event, p <+: tr → createdCount p ≤ closedCount p + 1

/-- The trace of `m` sessions with identifiers `k, k+1, ...`, each closed
before the next is created. -/
def pairTrace (k m : Nat) : List Event :=
  (List.range' k m).flatMap (fun i => [.created i, .closed i])

/-- The session identifier an event refers to. -/
def eventId : Event → Nat
  | .created i => i
  | .closed i => i

/-! ### Data model of the `trades` subscription (src/coincap.go lines 36-81)

`json.Number` fields are modelled as strings (the wire representation) and
`time.Time` as an integer instant; their internal structure plays no role in
the forwarding path. -/

/-- `json.Number`: the undecoded numeric wire representation. -/
abbrev JsonNumber := String

/-- `Front` is a reply for /front path. -/
structure Front : Type where
  Long : String
  Short : String
  Shapeshift : Bool
  Price : JsonNumber
  Cap24hrChange : JsonNumber
  Mktcap : JsonNumber
  Perc : JsonNumber
  Supply : JsonNumber
  USDVolume : JsonNumber
  Volume : JsonNumber
  VwapData : Option JsonNumber
  VwapDataBTC : Option JsonNumber
deriving DecidableEq, Repr

/-- The anonymous `Raw` struct nested in `TradeData`. -/
structure TradeDataRaw : Type where
  ID : String
  TimeStamp : Int
  Quantity : JsonNumber
  Price : JsonNumber
  Total : JsonNumber
  FillType : String
  OrderType : String
deriving DecidableEq, Repr

/-- `TradeData` is a piece of information about a trade. -/
structure TradeData : Type where
  ExchangeID : String
  MarketID : String
  Price : JsonNumber
  Raw : TradeDataRaw
  TimestampMs : Int
  Volume : JsonNumber
deriving DecidableEq, Repr

/-- `TradeMessage` is a websocket message from the `trades` channel. -/
structure TradeMessage : Type where
  ExchangeID : String
  MarketID : String
  Coin : String
  Msg : Front
deriving DecidableEq, Repr

/-- `Trade` contains a trade message and an optional trade data. -/
structure Trade : Type where
  Msg : TradeMessage
  Data : TradeData
deriving DecidableEq, Repr

/-- The anonymous struct inside `wrapper` holding the `Data` field. -/
structure WrapperTrade : Type where
  Data : TradeData
deriving DecidableEq, Repr

/-- The local `wrapper` type of `SubscribeTrades` (src/coincap.go lines
249-254): the decoded envelope of one `trades` event. -/
structure TradesWrapper : Type where
  Message : TradeMessage
  Trade : WrapperTrade
deriving DecidableEq, Repr

/-- The handler `SubscribeTrades` registers for the `trades` channel
(src/coincap.go lines 255-257): build a fresh `Trade` from the decoded
envelope and send it to the consumer sink. -/
def tradesHandler (tm : TradesWrapper) : Trade :=
  { Msg := tm.Message, Data := tm.Trade.Data }

/-- A channel send to the consumer sink, modelled as FIFO enqueue. -/
def sendToSink (sink : List Trade) (t : Trade) : List Trade := sink ++ [t]

/-- Dispatch of a sequence of transport events through the handler, in
transport delivery order, into the consumer sink. -/
def dispatchAll (events : List TradesWrapper) (sink : List Trade) : List Trade :=
  events.foldl (fun s tm => sendToSink s (tradesHandler tm)) sink

/-- `k` sequential consumer reads from the sink observe its first `k`
elements in FIFO order. -/
def readK (sink : List Trade) (k : Nat) : List Trade := sink.take k

/-! ### Interleaving model of one live attempt (for the concurrency claims)

The controller unit sits at the two-way `select` of `doConnect`
(src/coincap.go lines 295-300); a transport-driven handler invocation
(src/coincap.go lines 255-257) may be parked on its send to the consumer
sink.  The step relation below is read off those lines: the `select` cases
mention only the failure channel and the control channel. -/

/-- Program point of the controller unit inside one `doConnect` call. -/
inductive CtrlPoint : Type where
  | waiting : CtrlPoint
  | returned (goon : Bool) (err : Option GoErr) : CtrlPoint
deriving DecidableEq, Repr

/-- State of one live attempt: controller program point, the handler
invocation possibly parked on its sink send, the contents of the internal
failure channel, the contents and closed flag of the control channel, and
whether the session is still open. -/
structure SysState : Type where
  ctrl : CtrlPoint
  pendingSend : Option Trade
  errQueue : List GoErr
  stopQueue : List Bool
  stopClosed : Bool
  sessionOpen : Bool
deriving DecidableEq, Repr

/-- Small-step transitions of one live attempt.  The three `select` steps
translate `case err := <-errCh` and `case val, ok := <-stopChan` of
src/coincap.go lines 295-300 (with the deferred `client.Close()` of line
294 folded into the return); `consumerRead` is the caller draining the
sink, which is the only way a parked handler send completes. -/
inductive Step : SysState → SysState → Prop where
  | recvFailure (s : SysState) (e : GoErr) (tl : List GoErr) :
      s.ctrl = .waiting → s.errQueue = e :: tl →
      Step s { s with ctrl := .returned false (some e), errQueue := tl,
                      sessionOpen := false }
  | recvCtrl (s : SysState) (v : Bool) (tl : List Bool) :
      s.ctrl = .waiting → s.stopQueue = v :: tl →
      Step s { s with ctrl := .returned (!v) none, stopQueue := tl,
                      sessionOpen := false }
  | recvClosed (s : SysState) :
      s.ctrl = .waiting → s.stopQueue = [] → s.stopClosed = true →
      Step s { s with ctrl := .returned false none, sessionOpen := false }
  | consumerRead (s : SysState) (t : Trade) :
      s.pendingSend = some t →
      Step s { s with pendingSend := none }

/-! ### Basic facts about `makeClient` and `doConnect` -/

/-- The error result of `makeClient` does not depend on the failure channel
or the session identifier. -/
theorem makeClient_fst_indep (c i c' i' : Nat) (a : Attempt) :
    (makeClient c i a).1 = (makeClient c' i' a).1 := by
  rcases a with ⟨d, rd, re, rm, l⟩
  cases d <;> cases rd <;> cases re <;> cases rm <;> simp [makeClient]

/-- Each `doConnect` call either creates no session (dial failure) or
creates exactly one session and closes it before returning. -/
theorem doConnect_events_shape (c i : Nat) (a : Attempt) :
    (doConnect c i a).events = [] ∨
    (doConnect c i a).events = [.created i, .closed i] := by
  rcases a with ⟨d, rd, re, rm, l⟩
  cases d <;> cases rd <;> cases re <;> cases rm <;> cases l <;>
    simp [doConnect, makeClient]

/-! ### Claims about the control protocol -/

/-- C2: if session establishment fails (dial error or any of the three
handler registrations fails), the loop — at any iteration, for any counter
values — returns that establishment error immediately: the result is the
wrapped establishment error, the control channel is never consulted in that
iteration, and the outcome of `doConnect` is independent of whatever the
control channel would have delivered; on the first attempt this is
`subscribe` itself returning the error without consulting the control
channel at all. -/
theorem subscribe_establishment_failure (a : Attempt) (rest : List Attempt)
    (n k : Nat) (h : estFails a) :
    (subscribeLoop n k (a :: rest)).1 = some (estErr a) ∧
    (subscribe (a :: rest)).1 = some (estErr a) ∧
    (estErr a).isSome = true ∧
    (∀ r ∈ (subscribeLoop n k (a :: rest)).2, r.out.consultedCtrl = false) ∧
    (∀ c i l, doConnect c i a =
      doConnect c i ⟨a.dial, a.regDisconnect, a.regError, a.regMsg, l⟩) := by
  rcases a with ⟨d, rd, re, rm, lv⟩
  cases d <;> cases rd <;> cases re <;> cases rm <;>
    first
      | (solve
          | simp [subscribe, subscribeLoop, doConnect, makeClient, estErr])
      | simp [estFails] at h

/-- Witness for C2 at a concrete dial error. -/
theorem subscribe_establishment_failure_witness :
    estFails ⟨some (.external 7), none, none, none, .ctrl false true⟩ ∧
    (subscribe [⟨some (.external 7), none, none, none, .ctrl false true⟩]).1 =
      some (estErr ⟨some (.external 7), none, none, none, .ctrl false true⟩) :=
  ⟨by decide,
   (subscribe_establishment_failure
     ⟨some (.external 7), none, none, none, .ctrl false true⟩ [] 0 0
     (by decide)).2.1⟩

/-- C3: for every live session — at any loop iteration — if a transport
failure is the first event the `select` observes, the current session is
closed exactly once, the loop returns that failure as the terminal error,
and no further connection attempt is made (the rest of the schedule is
irrelevant); at the first iteration this is `subscribe` returning the
failure. -/
theorem subscribe_transport_failure (e : GoErr) (rest : List Attempt)
    (n k : Nat) :
    (subscribeLoop n k (mkLive (.failure e) :: rest)).1 = some (some e) ∧
    runTrace (subscribeLoop n k (mkLive (.failure e) :: rest)).2 =
      [.created k, .closed k] ∧
    (runTrace (subscribeLoop n k (mkLive (.failure e) :: rest)).2).count
      (Event.closed k) = 1 ∧
    (subscribeLoop n k (mkLive (.failure e) :: rest)).2.length = 1 ∧
    subscribeLoop n k (mkLive (.failure e) :: rest) =
      subscribeLoop n k [mkLive (.failure e)] ∧
    (subscribe (mkLive (.failure e) :: rest)).1 = some (some e) := by
  refine ⟨?_, ?_, ?_, ?_, ?_, ?_⟩ <;>
    simp [subscribe, subscribeLoop, doConnect, makeClient, mkLive, runTrace,
          List.count_cons]

/-- C4: for every live session — at any loop iteration — a closed control
channel (receive yields `ok = false`, whatever the zero value read) closes
the current session and makes the loop return `nil`, with exactly the same
run as an explicit `Stop`; graceful stop is never reported as an error. -/
theorem subscribe_control_closed (v : Bool) (rest : List Attempt)
    (n k : Nat) :
    (subscribeLoop n k (mkLive (.ctrl v false) :: rest)).1 = some none ∧
    runTrace (subscribeLoop n k (mkLive (.ctrl v false) :: rest)).2 =
      [.created k, .closed k] ∧
    subscribeLoop n k (mkLive (.ctrl v false) :: rest) =
      subscribeLoop n k (stopAttempt :: rest) ∧
    (subscribe (mkLive (.ctrl v false) :: rest)).1 = some none := by
  refine ⟨?_, ?_, ?_, ?_⟩ <;>
    cases v <;>
      simp [subscribe, subscribeLoop, doConnect, makeClient, mkLive,
            stopAttempt, runTrace]

/-- C5: receiving `false` on the control channel is Reset — the session is
closed, no error is surfaced, and the loop re-enters with fresh counters;
receiving `true` is Stop — the session is closed, the loop terminates and
`subscribe` returns `nil`. -/
theorem subscribe_reset_stop_semantics (rest : List Attempt) (n k : Nat) :
    (subscribeLoop n k (resetAttempt :: rest)).1 =
      (subscribeLoop (n + 1) (k + 1) rest).1 ∧
    runTrace (subscribeLoop n k (resetAttempt :: rest)).2 =
      [.created k, .closed k] ++
        runTrace (subscribeLoop (n + 1) (k + 1) rest).2 ∧
    (doConnect n k resetAttempt).goon = true ∧
    (doConnect n k resetAttempt).err = none ∧
    (subscribeLoop n k (stopAttempt :: rest)).1 = some none ∧
    runTrace (subscribeLoop n k (stopAttempt :: rest)).2 =
      [.created k, .closed k] ∧
    (doConnect n k stopAttempt).goon = false ∧
    (doConnect n k stopAttempt).err = none ∧
    (subscribe (stopAttempt :: rest)).1 = some none := by
  refine ⟨?_, ?_, ?_, ?_, ?_, ?_, ?_, ?_, ?_⟩ <;>
    simp [subscribe, subscribeLoop, doConnect, makeClient, resetAttempt,
          stopAttempt, mkLive, runTrace]

/-- C9: with a handler invocation parked on its sink send (any
`pendingSend`, never drained), the controller's two-way wait can still
receive a pending `Stop` and move to returning `nil` with the session
closed: the `select` cases do not involve the consumer sink, so a stuck
handler cannot starve the control wait. -/
theorem select_not_starved_by_handler (p : Option Trade) (q : List GoErr)
    (tl : List Bool) (b : Bool) :
    Step ⟨.waiting, p, q, true :: tl, b, true⟩
         ⟨.returned false none, p, q, tl, b, false⟩ ∧
    (subscribe [stopAttempt]).1 = some none := by
  constructor
  · simpa using Step.recvCtrl ⟨.waiting, p, q, true :: tl, b, true⟩ true tl rfl rfl
  · decide

/-! ### The run for N resets followed by one stop -/

theorem pairTrace_succ (k m : Nat) :
    pairTrace k (m + 1) = .created k :: .closed k :: pairTrace (k + 1) m := by
  simp [pairTrace, List.range'_succ]

theorem pairTrace_createdCount (m : Nat) : ∀ k : Nat,
    createdCount (pairTrace k m) = m := by
  induction m with
  | zero => intro k; simp [pairTrace, createdCount]
  | succ m ih =>
    intro k
    have h := ih (k + 1)
    rw [pairTrace_succ]
    simp only [createdCount, List.countP_cons] at h ⊢
    simp [h]

theorem pairTrace_closedCount (m : Nat) : ∀ k : Nat,
    closedCount (pairTrace k m) = m := by
  induction m with
  | zero => intro k; simp [pairTrace, closedCount]
  | succ m ih =>
    intro k
    have h := ih (k + 1)
    rw [pairTrace_succ]
    simp only [closedCount, List.countP_cons] at h ⊢
    simp [h]

theorem pairTrace_take_bound (m : Nat) : ∀ k j : Nat,
    createdCount ((pairTrace k m).take j) ≤
      closedCount ((pairTrace k m).take j) + 1 := by
  induction m with
  | zero => intro k j; simp [pairTrace, createdCount, closedCount]
  | succ m ih =>
    intro k j
    rw [pairTrace_succ]
    match j with
    | 0 => simp [createdCount, closedCount]
    | 1 => simp [createdCount, closedCount, List.countP_cons]
    | j + 2 =>
      have h := ih (k + 1) j
      simp [List.take_succ_cons, createdCount, closedCount,
        List.countP_cons] at h ⊢
      omega

theorem pairTrace_noTwoLive (k m : Nat) : noTwoLive (pairTrace k m) := by
  intro p hp
  obtain ⟨t, ht⟩ := hp
  have h : (pairTrace k m).take p.length = p := by
    rw [← ht]; exact List.take_left p t
  calc createdCount p
      = createdCount ((pairTrace k m).take p.length) := by rw [h]
    _ ≤ closedCount ((pairTrace k m).take p.length) + 1 :=
        pairTrace_take_bound m k p.length
    _ = closedCount p + 1 := by rw [h]

theorem subscribeLoop_resets_stop (N : Nat) : ∀ n k : Nat,
    (subscribeLoop n k (List.replicate N resetAttempt ++ [stopAttempt])).1 =
      some none ∧
    runTrace
      (subscribeLoop n k (List.replicate N resetAttempt ++ [stopAttempt])).2 =
      pairTrace k (N + 1) := by
  induction N with
  | zero =>
    intro n k
    constructor <;>
      simp [subscribeLoop, doConnect, makeClient, stopAttempt, mkLive,
            runTrace, pairTrace, List.range']
  | succ N ih =>
    intro n k
    have h := ih (n + 1) (k + 1)
    rw [List.replicate_succ]
    constructor
    · simp only [List.cons_append, subscribeLoop]
      simpa [doConnect, makeClient, resetAttempt, mkLive] using h.1
    · simp only [List.cons_append, subscribeLoop]
      rw [pairTrace_succ]
      simpa [doConnect, makeClient, resetAttempt, mkLive, runTrace] using h.2

/-- C1: for every N, a schedule of N Reset signals followed by one Stop
makes `subscribe` return `nil`, creates exactly N+1 transport sessions, and
closes each before the next is created: the trace is the well-nested pair
trace, and at no prefix is more than one session live. -/
theorem subscribe_resets_then_stop (N : Nat) :
    (subscribe (List.replicate N resetAttempt ++ [stopAttempt])).1 =
      some none ∧
    runTrace (subscribe (List.replicate N resetAttempt ++ [stopAttempt])).2 =
      pairTrace 0 (N + 1) ∧
    createdCount
      (runTrace (subscribe (List.replicate N resetAttempt ++ [stopAttempt])).2) =
      N + 1 ∧
    closedCount
      (runTrace (subscribe (List.replicate N resetAttempt ++ [stopAttempt])).2) =
      N + 1 ∧
    noTwoLive
      (runTrace (subscribe (List.replicate N resetAttempt ++ [stopAttempt])).2) := by
  have h := subscribeLoop_resets_stop N 0 0
  refine ⟨h.1, h.2, ?_, ?_, ?_⟩
  · rw [show runTrace
        (subscribe (List.replicate N resetAttempt ++ [stopAttempt])).2 =
        pairTrace 0 (N + 1) from h.2]
    exact pairTrace_createdCount (N + 1) 0
  · rw [show runTrace
        (subscribe (List.replicate N resetAttempt ++ [stopAttempt])).2 =
        pairTrace 0 (N + 1) from h.2]
    exact pairTrace_closedCount (N + 1) 0
  · rw [show runTrace
        (subscribe (List.replicate N resetAttempt ++ [stopAttempt])).2 =
        pairTrace 0 (N + 1) from h.2]
    exact pairTrace_noTwoLive 0 (N + 1)

/-- Witness for C1 at N = 2, with the `noTwoLive` bound discharged at the
concrete prefix consisting of the first creation event. -/
theorem subscribe_resets_then_stop_witness :
    (subscribe (List.replicate 2 resetAttempt ++ [stopAttempt])).1 =
      some none ∧
    ([Event.created 0] <+:
      runTrace (subscribe (List.replicate 2 resetAttempt ++ [stopAttempt])).2) ∧
    createdCount [Event.created 0] ≤ closedCount [Event.created 0] + 1 :=
  ⟨(subscribe_resets_then_stop 2).1, by decide,
   (subscribe_resets_then_stop 2).2.2.2.2 [Event.created 0] (by decide)⟩

/-! ### Termination causes of the reconnect loop -/

/-- `doConnect` asks the loop to continue exactly when session establishment
succeeded and the control channel delivered a Reset (`false` on an open
channel). -/
theorem doConnect_goon_iff (c i : Nat) (a : Attempt) :
    (doConnect c i a).goon = true ↔
      (¬ estFails a ∧ a.live = .ctrl false true) := by
  rcases a with ⟨d, rd, re, rm, lv⟩
  rcases lv with e | ⟨v, o⟩ <;>
    cases d <;> cases rd <;> cases re <;> cases rm <;>
      first
        | (solve | simp [doConnect, makeClient, estFails])
        | (cases v <;> cases o <;> simp [doConnect, makeClient, estFails])

/-- A schedule consisting only of successful attempts answered by Reset
never makes the loop return. -/
theorem subscribeLoop_all_resets (l : List Attempt) : ∀ n k : Nat,
    (∀ a ∈ l, ¬ estFails a ∧ a.live = .ctrl false true) →
    (subscribeLoop n k l).1 = none := by
  induction l with
  | nil => intro n k _; rfl
  | cons a rest ih =>
    intro n k h
    have hg : (doConnect n k a).goon = true :=
      (doConnect_goon_iff n k a).mpr (h a (List.mem_cons_self a rest))
    simp only [subscribeLoop, hg, if_true]
    exact ih (n + 1) (k + 1) (fun b hb => h b (List.mem_cons_of_mem a hb))

/-- C7: the loop leaves `doConnect` with `goon = false` exactly on a
session-establishment error, a transport failure, an explicit Stop, or a
closed control channel; it never returns out of a Reset, so a schedule of
Resets alone — of any length — leaves the loop running. -/
theorem subscribe_termination_causes :
    (∀ (c i : Nat) (a : Attempt), (doConnect c i a).goon = false ↔
      (estFails a ∨ (∃ e, a.live = .failure e) ∨ a.live = .ctrl true true ∨
        ∃ v, a.live = .ctrl v false)) ∧
    (∀ l : List Attempt,
      (∀ a ∈ l, ¬ estFails a ∧ a.live = .ctrl false true) →
      (subscribe l).1 = none) ∧
    (∀ N : Nat, (subscribe (List.replicate N resetAttempt)).1 = none) := by
  refine ⟨?_, ?_, ?_⟩
  · intro c i a
    rcases a with ⟨d, rd, re, rm, lv⟩
    rcases lv with e | ⟨v, o⟩ <;>
      cases d <;> cases rd <;> cases re <;> cases rm <;>
        first
          | (solve | simp [doConnect, makeClient, estFails])
          | (cases v <;> cases o <;> simp [doConnect, makeClient, estFails])
  · exact fun l h => subscribeLoop_all_resets l 0 0 h
  · intro N
    refine subscribeLoop_all_resets _ 0 0 (fun a ha => ?_)
    rw [List.eq_of_mem_replicate ha]
    exact ⟨by simp [estFails, resetAttempt, mkLive], rfl⟩

/-- Witness for C7: a one-Reset schedule leaves the loop running. -/
theorem subscribe_termination_causes_witness :
    (∀ a ∈ [resetAttempt], ¬ estFails a ∧ a.live = .ctrl false true) ∧
    (subscribe [resetAttempt]).1 = none :=
  ⟨by decide, subscribe_termination_causes.2.1 [resetAttempt] (by decide)⟩

/-! ### Every session is closed within its own iteration -/

/-- All events of one `doConnect` call refer to that call's session. -/
theorem doConnect_events_ids (c i : Nat) (a : Attempt) :
    ∀ e ∈ (doConnect c i a).events, eventId e = i := by
  intro e he
  rcases doConnect_events_shape c i a with h | h <;> rw [h] at he
  · cases he
  · simp only [List.mem_cons, List.mem_singleton] at he
    rcases he with rfl | rfl | he
    · rfl
    · rfl
    · cases he

/-- Events of a run started at session counter `k` refer to sessions `≥ k`. -/
theorem subscribeLoop_trace_ids (l : List Attempt) : ∀ n k : Nat,
    ∀ e ∈ runTrace (subscribeLoop n k l).2, k ≤ eventId e := by
  induction l with
  | nil => intro n k e he; simp [subscribeLoop, runTrace] at he
  | cons a rest ih =>
    intro n k e he
    by_cases hg : (doConnect n k a).goon = true
    · simp only [subscribeLoop, hg, if_true, runTrace, List.flatMap_cons,
        List.mem_append] at he
      rcases he with he | he
      · exact le_of_eq (doConnect_events_ids n k a e he).symm
      · exact Nat.le_of_succ_le (ih (n + 1) (k + 1) e (by simpa [runTrace] using he))
    · simp only [subscribeLoop, hg, if_false, runTrace, List.flatMap_cons,
        List.flatMap_nil, List.append_nil, Bool.false_eq_true] at he
      exact le_of_eq (doConnect_events_ids n k a e he).symm

/-- The events of session `i` in any run are either absent (that attempt's
dial failed, or `i` was never reached) or exactly a creation immediately
followed by the closure — the session never outlives its loop iteration. -/
theorem trace_session_filter (l : List Attempt) : ∀ n k i : Nat,
    (runTrace (subscribeLoop n k l).2).filter
        (fun e => e == Event.created i || e == Event.closed i) = [] ∨
    (runTrace (subscribeLoop n k l).2).filter
        (fun e => e == Event.created i || e == Event.closed i) =
      [Event.created i, Event.closed i] := by
  induction l with
  | nil => intro n k i; left; simp [subscribeLoop, runTrace]
  | cons a rest ih =>
    intro n k i
    by_cases hg : (doConnect n k a).goon = true
    · have hsplit : runTrace (subscribeLoop n k (a :: rest)).2 =
          (doConnect n k a).events ++
            runTrace (subscribeLoop (n + 1) (k + 1) rest).2 := by
        simp [subscribeLoop, hg, runTrace]
      rw [hsplit, List.filter_append]
      by_cases hik : i = k
      · subst hik
        have htail : (runTrace (subscribeLoop (n + 1) (i + 1) rest).2).filter
            (fun e => e == Event.created i || e == Event.closed i) = [] := by
          refine List.filter_eq_nil_iff.mpr (fun e he => ?_)
          have hid := subscribeLoop_trace_ids rest (n + 1) (i + 1) e he
          rcases e with j | j <;> simp [eventId] at hid ⊢ <;> omega
        rw [htail, List.append_nil]
        rcases doConnect_events_shape n i a with h | h <;> rw [h]
        · exact Or.inl rfl
        · right; simp
      · have hhead : ((doConnect n k a).events).filter
            (fun e => e == Event.created i || e == Event.closed i) = [] := by
          refine List.filter_eq_nil_iff.mpr (fun e he => ?_)
          have hid := doConnect_events_ids n k a e he
          rcases e with j | j <;> simp [eventId] at hid ⊢ <;> omega
        rw [hhead, List.nil_append]
        exact ih (n + 1) (k + 1) i
    · have hone : runTrace (subscribeLoop n k (a :: rest)).2 =
          (doConnect n k a).events := by
        simp [subscribeLoop, hg, runTrace]
      rw [hone]
      by_cases hik : i = k
      · subst hik
        rcases doConnect_events_shape n i a with h | h <;> rw [h]
        · exact Or.inl rfl
        · right; simp
      · left
        refine List.filter_eq_nil_iff.mpr (fun e he => ?_)
        have hid := doConnect_events_ids n k a e he
        rcases e with j | j <;> simp [eventId] at hid ⊢ <;> omega

/-- Counting occurrences of session `i`'s events commutes with restricting
the trace to session `i`'s events. -/
theorem count_via_filter (tr : List Event) (i : Nat) :
    tr.count (Event.created i) =
      (tr.filter (fun e => e == Event.created i || e == Event.closed i)).count
        (Event.created i) ∧
    tr.count (Event.closed i) =
      (tr.filter (fun e => e == Event.created i || e == Event.closed i)).count
        (Event.closed i) :=
  ⟨(List.count_filter (by simp)).symm, (List.count_filter (by simp)).symm⟩

/-- C6: in every run, the trace restricted to any session `i` is either
empty or exactly `[created i, closed i]` — every transport session created
during the loop is closed before any later event, on every exit path — and
creations and closures of each session balance. -/
theorem subscribe_sessions_closed (attempts : List Attempt) (i : Nat) :
    ((runTrace (subscribe attempts).2).filter
        (fun e => e == Event.created i || e == Event.closed i) = [] ∨
     (runTrace (subscribe attempts).2).filter
        (fun e => e == Event.created i || e == Event.closed i) =
       [Event.created i, Event.closed i]) ∧
    (runTrace (subscribe attempts).2).count (Event.created i) =
      (runTrace (subscribe attempts).2).count (Event.closed i) := by
  have h : (runTrace (subscribe attempts).2).filter
      (fun e => e == Event.created i || e == Event.closed i) = [] ∨
    (runTrace (subscribe attempts).2).filter
      (fun e => e == Event.created i || e == Event.closed i) =
      [Event.created i, Event.closed i] := trace_session_filter attempts 0 0 i
  refine ⟨h, ?_⟩
  have hc := count_via_filter (runTrace (subscribe attempts).2) i
  rw [hc.1, hc.2]
  rcases h with h | h <;> rw [h] <;> simp [List.count_cons]

/-- Witness for C6: in the run of one transport-failure attempt, session 0's
restricted trace is the creation-closure pair, and session 1 never appears. -/
theorem subscribe_sessions_closed_witness :
    (runTrace (subscribe [mkLive (.failure (.errorf "boom"))]).2).filter
        (fun e => e == Event.created 0 || e == Event.closed 0) =
      [Event.created 0, Event.closed 0] ∧
    (runTrace (subscribe [mkLive (.failure (.errorf "boom"))]).2).count
        (Event.created 1) =
      (runTrace (subscribe [mkLive (.failure (.errorf "boom"))]).2).count
        (Event.closed 1) := by
  refine ⟨?_, (subscribe_sessions_closed [mkLive (.failure (.errorf "boom"))] 1).2⟩
  rcases (subscribe_sessions_closed [mkLive (.failure (.errorf "boom"))] 0).1
    with h | h
  · exact absurd h (by decide)
  · exact h

/-! ### Freshness of the internal failure channel -/

/-- Every failure-channel-posting handler registered by a `doConnect` call
posts to the channel that call allocated. -/
theorem doConnect_regs_postTo (c i : Nat) (a : Attempt) :
    ∀ reg ∈ (doConnect c i a).regs, ∀ c', reg.postsTo = some c' → c' = c := by
  rcases a with ⟨d, rd, re, rm, lv⟩
  cases d <;> cases rd <;> cases re <;> cases rm <;> cases lv <;>
    simp [doConnect, makeClient]

/-- The `select` of a `doConnect` call waits only on the failure channel
that call allocated. -/
theorem doConnect_waitedOn_eq (c i : Nat) (a : Attempt) :
    ∀ c', (doConnect c i a).waitedOn = some c' → c' = c := by
  rcases a with ⟨d, rd, re, rm, lv⟩
  cases d <;> cases rd <;> cases re <;> cases rm <;> cases lv <;>
    simp [doConnect, makeClient]

/-- In any run starting at channel counter `n`, every iteration record has
channel `≥ n`, its handlers post only to its own channel, and its `select`
waits only on its own channel. -/
theorem subscribeLoop_chans (l : List Attempt) : ∀ n k : Nat,
    ∀ r ∈ (subscribeLoop n k l).2, n ≤ r.chan ∧
      (∀ reg ∈ r.out.regs, ∀ c, reg.postsTo = some c → c = r.chan) ∧
      (∀ c, r.out.waitedOn = some c → c = r.chan) := by
  induction l with
  | nil => intro n k r hr; simp [subscribeLoop] at hr
  | cons a rest ih =>
    intro n k r hr
    by_cases hg : (doConnect n k a).goon = true <;>
      simp only [subscribeLoop, hg, if_true, if_false, List.mem_cons,
        List.mem_singleton, Bool.false_eq_true] at hr
    · rcases hr with rfl | hr
      · exact ⟨le_refl n, doConnect_regs_postTo n k a, doConnect_waitedOn_eq n k a⟩
      · have h := ih (n + 1) (k + 1) r hr
        exact ⟨Nat.le_of_succ_le h.1, h.2⟩
    · rcases hr with rfl | hr
      · exact ⟨le_refl n, doConnect_regs_postTo n k a, doConnect_waitedOn_eq n k a⟩
      · cases hr

/-- Channel identifiers strictly increase along the run: each iteration's
`make(chan error, 2)` yields a fresh channel. -/
theorem subscribeLoop_chans_lt (l : List Attempt) : ∀ n k : Nat,
    (subscribeLoop n k l).2.Pairwise (fun r1 r2 => r1.chan < r2.chan) := by
  induction l with
  | nil => intro n k; simp [subscribeLoop]
  | cons a rest ih =>
    intro n k
    by_cases hg : (doConnect n k a).goon = true <;>
      simp only [subscribeLoop, hg, if_true, if_false, Bool.false_eq_true]
    · refine List.pairwise_cons.mpr ⟨fun r hr => ?_, ih (n + 1) (k + 1)⟩
      have h := (subscribeLoop_chans rest (n + 1) (k + 1) r hr).1
      exact Nat.lt_of_lt_of_le (Nat.lt_succ_self n) h
    · simp

/-- C10: in every run, each attempt's registered failure handlers post only
to the failure channel that attempt allocated, the attempt's `select` waits
only on that channel, channels of distinct attempts are distinct, and hence
no handler of one attempt posts to the channel any other attempt's
multiplexing wait receives from: a transport failure of a previous (closed)
session can never terminate a later session. -/
theorem failure_channels_fresh (attempts : List Attempt) :
    (∀ r ∈ (subscribe attempts).2, ∀ reg ∈ r.out.regs, ∀ c,
        reg.postsTo = some c → c = r.chan) ∧
    (∀ r ∈ (subscribe attempts).2, ∀ c,
        r.out.waitedOn = some c → c = r.chan) ∧
    (subscribe attempts).2.Pairwise (fun r1 r2 => r1.chan ≠ r2.chan) ∧
    (subscribe attempts).2.Pairwise (fun r1 r2 => ∀ reg ∈ r1.out.regs,
        ∀ c c', reg.postsTo = some c → r2.out.waitedOn = some c' → c ≠ c') := by
  have hw := subscribeLoop_chans attempts 0 0
  have hlt := subscribeLoop_chans_lt attempts 0 0
  refine ⟨fun r hr => (hw r hr).2.1, fun r hr => (hw r hr).2.2, ?_, ?_⟩
  · exact hlt.imp (fun h => Nat.ne_of_lt h)
  · refine List.Pairwise.imp_of_mem ?_ hlt
    intro r1 r2 h1 h2 hlt12 reg hreg c c' hpost hwait
    rw [(hw r1 h1).2.1 reg hreg c hpost, (hw r2 h2).2.2 c' hwait]
    exact Nat.ne_of_lt hlt12

/-- Witness for C10: in the two-attempt Reset-then-Stop run the two
allocated failure channels differ. -/
theorem failure_channels_fresh_witness :
    (subscribe [resetAttempt, stopAttempt]).2.Pairwise
      (fun r1 r2 => r1.chan ≠ r2.chan) :=
  (failure_channels_fresh [resetAttempt, stopAttempt]).2.2.1

/-! ### Order preservation of the trades handler -/

/-- Dispatching a sequence of decoded envelopes appends, in delivery order,
one freshly built `Trade` per envelope. -/
theorem dispatchAll_eq (events : List TradesWrapper) : ∀ sink : List Trade,
    dispatchAll events sink = sink ++ events.map tradesHandler := by
  induction events with
  | nil => intro sink; simp [dispatchAll]
  | cons a t ih =>
    intro sink
    simp only [dispatchAll, List.foldl_cons] at ih ⊢
    rw [ih (sendToSink sink (tradesHandler a))]
    simp [sendToSink]

/-- C8: for every sequence of `K` transport events on the subscribed
channel, the handler forwards `K` trades to the consumer sink in exactly
transport delivery order, the `j`-th being a freshly constructed `Trade`
whose `Msg` and `Data` fields are the decoded envelope's `Message` and
`Trade.Data`; `K` sequential consumer reads observe that same order. -/
theorem subscribeTrades_order_preserved (events : List TradesWrapper) :
    (dispatchAll events []).length = events.length ∧
    (∀ j : Nat, (dispatchAll events [])[j]? =
      (events[j]?).map
        (fun tm => { Msg := tm.Message, Data := tm.Trade.Data })) ∧
    readK (dispatchAll events []) events.length = events.map tradesHandler := by
  have h := dispatchAll_eq events []
  rw [List.nil_append] at h
  refine ⟨by rw [h]; simp, fun j => ?_, ?_⟩
  · rw [h, List.getElem?_map]
    rfl
  · rw [readK, h, ← List.length_map events tradesHandler, List.take_length]
